import Mathlib

/-!
Verification of the `Keras_ELMo_Tutorial.ipynb` notebook
(repository `elmo-bilstm-cnn-crf`).

The notebook is a straight-line Python script:
  1. download / load the IMDB dataset into document dictionaries,
  2. tokenize each document (`tokenize_text`),
  3. look up ELMo embeddings (`create_elmo_embeddings`),
  4. pad the embedding matrices (`pad_x_matrix`) and train a small
     Keras `Sequential` model (`model.fit(..., epochs=10, ...)`).

The shallow embedding below models Python dictionaries as association
lists (`Doc`), numpy float arrays as nested lists over `ℚ`, and Python
exceptions (KeyError, IndexError, ValueError) as `Option`/`Except`
failures.  External library calls (the Keras tokenizer
`text_to_word_sequence`, the AllenNLP `ElmoEmbedder`, the random
shuffle, the gradient step of `model.fit`) are parameters of the
embedding: the notebook delegates them wholesale, and none of the
claims depend on their internals.
-/

namespace ElmoTutorial

/-- A Python value stored in a document dictionary: the raw text, the
numeric label, or the token list. -/
inductive PyVal where
  | vStr (s : String)
  | vNat (n : Nat)
  | vTokens (ts : List String)
  deriving DecidableEq

instance : Inhabited PyVal := ⟨PyVal.vNat 0⟩

/-- A Python dictionary with string keys, modelled as an association
list that preserves insertion order (as Python dicts do). -/
abbrev Doc := List (String × PyVal)

/-- `d[k]` lookup on a Python dict: the value at the first matching key,
`none` when the key is absent (a `KeyError` in Python). -/
def dictGet : Doc → String → Option PyVal
  | [], _ => none
  | p :: ps, k => if p.1 = k then some p.2 else dictGet ps k

/-- `d[k] = v` on a Python dict: replace the value at an existing key in
place, otherwise append the new key at the end (Python dicts keep
insertion order). -/
def dictSet : Doc → String → PyVal → Doc
  | [], k, v => [(k, v)]
  | p :: ps, k, v => if p.1 = k then (k, v) :: ps else p :: dictSet ps k v

@[simp] theorem dictGet_nil (k : String) : dictGet [] k = none := rfl

@[simp] theorem dictGet_cons (p : String × PyVal) (ps : Doc) (k : String) :
    dictGet (p :: ps) k = if p.1 = k then some p.2 else dictGet ps k := rfl

@[simp] theorem dictSet_nil (k : String) (v : PyVal) : dictSet [] k v = [(k, v)] := rfl

@[simp] theorem dictSet_cons (p : String × PyVal) (ps : Doc) (k : String) (v : PyVal) :
    dictSet (p :: ps) k v = if p.1 = k then (k, v) :: ps else p :: dictSet ps k v := rfl

/-- Reading back a key that was just written returns the written value. -/
theorem dictGet_dictSet_self (d : Doc) (k : String) (v : PyVal) :
    dictGet (dictSet d k v) k = some v := by
  induction d with
  | nil => simp
  | cons p ps ih =>
    by_cases h : p.1 = k <;> simp [h, ih]

/-- Writing one key leaves lookups of any other key unchanged. -/
theorem dictGet_dictSet_ne (d : Doc) (k k' : String) (v : PyVal) (hne : k ≠ k') :
    dictGet (dictSet d k v) k' = dictGet d k' := by
  induction d with
  | nil => simp [hne]
  | cons p ps ih =>
    by_cases h : p.1 = k
    · simp [h, hne, fun h2 : p.1 = k' => hne (h ▸ h2)]
    · simp [h, ih]

/-- Writing the same key twice is the same as writing only the second
value. -/
theorem dictSet_dictSet (d : Doc) (k : String) (v w : PyVal) :
    dictSet (dictSet d k v) k w = dictSet d k w := by
  induction d with
  | nil => simp
  | cons p ps ih =>
    by_cases h : p.1 = k <;> simp [h, ih]

/-- Writing a key changes the key list only by appending the key when it
was absent. -/
theorem keys_dictSet_of_not_mem (d : Doc) (k : String) (v : PyVal)
    (h : ¬ k ∈ d.map Prod.fst) :
    dictSet d k v = d ++ [(k, v)] := by
  induction d with
  | nil => simp
  | cons p ps ih =>
    simp only [List.map_cons, List.mem_cons] at h
    push_neg at h
    have hp : ¬ p.1 = k := fun h2 => h.1 h2.symm
    simp [hp, ih h.2]

/-! ## Stage 1: dataset acquisition

`load_directory_data` reads every file of a directory into a dict
`{"text": contents.replace("<br />", " "), "label": label}`;
`load_dataset` concatenates the positive (label 1) and negative
(label 0) directories.  The filesystem is modelled by the list of file
contents of each directory. -/

/-- One document record as built by `load_directory_data`:
`{"text": f.read().replace("<br />", " "), "label": label}`. -/
def mkDocument (contents : String) (label : Nat) : Doc :=
  [("text", PyVal.vStr (contents.replace "<br />" " ")), ("label", PyVal.vNat label)]

/-- `load_directory_data(directory, label)`: one record per file of the
directory, in listing order. -/
def load_directory_data (files : List String) (label : Nat) : List Doc :=
  files.map (fun contents => mkDocument contents label)

/-- `load_dataset(directory)`: positive examples (label 1) followed by
negative examples (label 0). -/
def load_dataset (pos_files neg_files : List String) : List Doc :=
  load_directory_data pos_files 1 ++ load_directory_data neg_files 0

/-! ## Stage 2: tokenization -/

/-- The global `max_tokens = 100` of the notebook. -/
def max_tokens : Nat := 100

/-- The value of a document's `"text"` field (used only to state
specifications; the executable code below goes through `dictGet`). -/
def getText (d : Doc) : String :=
  match dictGet d "text" with
  | some (PyVal.vStr t) => t
  | _ => ""

/-- The body of the `tokenize_text` loop for one document:
`document['tokens'] = text_to_word_sequence(document['text'], lower=False)`
followed by `document['tokens'] = document['tokens'][0:max_tokens]`.
The Keras tokenizer `text_to_word_sequence` is an external library call
and is passed in as `t2ws`.  A missing or non-string `"text"` field is a
Python `KeyError`/`TypeError`, modelled as `none`. -/
def tokenize_document (t2ws : String → List String) (mtk : Nat) (document : Doc) :
    Option Doc :=
  match dictGet document "text" with
  | some (PyVal.vStr text) =>
    let document := dictSet document "tokens" (PyVal.vTokens (t2ws text))
    match dictGet document "tokens" with
    | some (PyVal.vTokens ts) =>
      some (dictSet document "tokens" (PyVal.vTokens (ts.take mtk)))
    | _ => none
  | _ => none

/-- `tokenize_text(documents, max_tokens)`: the in-place update loop over
the document list, modelled as rebuilding the list. -/
def tokenize_text (t2ws : String → List String) (mtk : Nat) :
    List Doc → Option (List Doc)
  | [] => some []
  | d :: ds =>
    match tokenize_document t2ws mtk d, tokenize_text t2ws mtk ds with
    | some d2, some ds2 => some (d2 :: ds2)
    | _, _ => none

/-! ## Stage 3: ELMo embedding lookup

`create_elmo_embeddings` feeds every document's token list to the
external `ElmoEmbedder` and averages the three returned layers.  A
per-token embedding matrix is a `List (List ℚ)` (tokens × 1024), and the
raw ELMo output for one sentence is three such layers. -/

/-- A per-sentence embedding matrix (tokens × embedding dimension). -/
abbrev Emb := List (List ℚ)

/-- The raw ELMo output for one sentence: a stack of layers. -/
abbrev Emb3 := List Emb

/-- Elementwise sum of two matrices (the accumulation inside
`np.average`). -/
def matAdd (a b : Emb) : Emb :=
  List.zipWith (fun r s => List.zipWith (· + ·) r s) a b

/-- `np.average(elmo_embedding, axis=0)`: the elementwise mean of the
stacked layers. -/
def npAverageAxis0 (layers : Emb3) : Emb :=
  match layers with
  | [] => []
  | l :: ls =>
    (ls.foldl matAdd l).map (fun row => row.map (fun x => x / ((ls.length + 1 : Nat) : ℚ)))

/-- The list comprehension
`tokens = [document['tokens'] for document in documents]`; a document
without a `"tokens"` list is a Python `KeyError`, modelled as `none`. -/
def extract_tokens : List Doc → Option (List (List String))
  | [] => some []
  | d :: ds =>
    match dictGet d "tokens", extract_tokens ds with
    | some (PyVal.vTokens ts), some rest => some (ts :: rest)
    | _, _ => none

/-- The value of a document's `"label"` field (used only to state
specifications). -/
def getLabel (d : Doc) : PyVal := (dictGet d "label").getD (PyVal.vNat 0)

/-- The value of a document's `"tokens"` field (used only to state
specifications). -/
def getTokens (d : Doc) : List String :=
  match dictGet d "tokens" with
  | some (PyVal.vTokens ts) => ts
  | _ => []

/-- The `for elmo_embedding in elmo.embed_sentences(tokens)` loop of
`create_elmo_embeddings`: each generator item is averaged over its
layers and appended together with `documents[documentIdx]['label']`;
after `documentIdx` is incremented the loop breaks as soon as
`max_sentences > 0 and documentIdx >= max_sentences`. -/
def elmoLoop (documents : List Doc) (max_sentences : Int) :
    List Emb3 → Nat → Option (List Emb × List PyVal)
  | [], _ => some ([], [])
  | elmo_embedding :: rest, documentIdx =>
    match documents[documentIdx]? with
    | none => none
    | some document =>
      match dictGet document "label" with
      | none => none
      | some label =>
        let avg_elmo_embedding := npAverageAxis0 elmo_embedding
        if 0 < max_sentences ∧ max_sentences ≤ ((documentIdx : Int) + 1) then
          some ([avg_elmo_embedding], [label])
        else
          match elmoLoop documents max_sentences rest (documentIdx + 1) with
          | none => none
          | some (embeddings, labels) =>
            some (avg_elmo_embedding :: embeddings, label :: labels)

/-- `create_elmo_embeddings(elmo, documents, max_sentences)`.  The
external `elmo.embed_sentences` generator yields one stacked-layer
embedding per token list, in order; it is modelled by mapping the
per-sentence function `embed_sentences` over the extracted token
lists. -/
def create_elmo_embeddings (embed_sentences : List String → Emb3)
    (documents : List Doc) (max_sentences : Int) : Option (List Emb × List PyVal) :=
  match extract_tokens documents with
  | none => none
  | some tokens => elmoLoop documents max_sentences (tokens.map embed_sentences) 0

/-! ## Stage 4a: padding -/

/-- `np.array(sent).shape[1]`: the row width of a rectangular non-empty
nested list; `none` when numpy would not expose a second axis (empty
list, or ragged rows, which make a 1-d object array), in which case
`sentence_vec.shape[1]` raises `IndexError`. -/
def np_shape1 (sent : Emb) : Option Nat :=
  match sent with
  | [] => none
  | r :: rs => if rs.all (fun row => row.length = r.length) then some r.length else none

/-- One iteration of the `pad_x_matrix` loop:
`padding_length = max_tokens - sentence_vec.shape[0]`, and when it is
positive the sentence is extended with `np.zeros((padding_length,
sentence_vec.shape[1]))`. -/
def pad_sentence (sent : Emb) : Option Emb :=
  let padding_length : Int := (max_tokens : Int) - sent.length
  if 0 < padding_length then
    match np_shape1 sent with
    | none => none
    | some d => some (sent ++ List.replicate padding_length.toNat (List.replicate d 0))
  else some sent

/-- The `for sentenceIdx in range(len(x_matrix))` loop of
`pad_x_matrix`, replacing each sentence in place. -/
def pad_loop : List Emb → Option (List Emb)
  | [] => some []
  | s :: rest =>
    match pad_sentence s, pad_loop rest with
    | some s2, some rest2 => some (s2 :: rest2)
    | _, _ => none

/-- Whether `np.array(x_matrix, dtype=np.float32)` succeeds in building
a single 3-d array: all sentences must have the same number of rows and
all rows the same width (otherwise numpy raises a `ValueError`). -/
def rect3 (m : List Emb) : Bool :=
  (match m with
   | [] => true
   | s :: rest => rest.all (fun t => t.length = s.length)) &&
  (match m.flatten with
   | [] => true
   | r :: rows => rows.all (fun row => row.length = r.length))

/-- `pad_x_matrix(x_matrix)`: pad every sentence to `max_tokens` rows,
then collect the result into one `np.float32` array. -/
def pad_x_matrix (x_matrix : List Emb) : Option (List Emb) :=
  match pad_loop x_matrix with
  | none => none
  | some padded => if rect3 padded then some padded else none

/-! ## Stage 4b: model definition and training -/

/-- A Keras layer as added by the notebook's `model.add(...)` calls. -/
inductive Layer where
  | conv1D (filters kernel_size : Nat) (conv_padding : String)
  | globalMaxPooling1D
  | dense (units : Nat) (activation : String)
  deriving DecidableEq

/-- `model.add(layer)` on a Keras `Sequential` model: append the layer
to the stack. -/
def sequential_add (layers : List Layer) (layer : Layer) : List Layer :=
  layers ++ [layer]

/-- The notebook's model construction:
`model = Sequential()` followed by the four `model.add(...)` calls
(`Conv1D(filters=250, kernel_size=3, padding='same')`,
`GlobalMaxPooling1D()`, `Dense(250, activation='relu')`,
`Dense(1, activation='sigmoid')`), before `model.compile`. -/
def model : List Layer :=
  sequential_add
    (sequential_add
      (sequential_add
        (sequential_add [] (Layer.conv1D 250 3 "same"))
        Layer.globalMaxPooling1D)
      (Layer.dense 250 "relu"))
    (Layer.dense 1 "sigmoid")

/-- The `epochs=10` argument of the notebook's `model.fit` call. -/
def script_fit_epochs : Nat := 10

/-- `model.fit(train_x, train_y, ..., epochs=e, ...)`: one full pass
over the training data per epoch.  The gradient update of one pass is
the external library's business and is passed in as `step`; the result
pairs the trained weights with the number of passes performed. -/
def fit {Model Data : Type} (step : Data → Model → Model) (data : Data) :
    Nat → Model → Model × Nat
  | 0, m => (m, 0)
  | e + 1, m =>
    let r := fit step data e (step data m)
    (r.1, r.2 + 1)

/-! ## The script

All external inputs of the notebook are collected in `Env`: the file
contents of the four dataset directories, the outcome of the two
`random.shuffle` calls, the Keras tokenizer, the ElmoEmbedder, and the
training step / initial weights of the Keras model (of abstract weight
type `Model`). -/

structure Env (Model : Type) where
  train_pos : List String
  train_neg : List String
  test_pos : List String
  test_neg : List String
  shuffle_train : List Doc → List Doc
  shuffle_test : List Doc → List Doc
  text_to_word_sequence : String → List String
  embed_sentences : List String → Emb3
  train_step : List Emb × List PyVal → Model → Model
  init_model : Model

/-- `download_and_load_datasets()`: load the train and test splits. -/
def download_and_load_datasets {Model : Type} (env : Env Model) :
    List Doc × List Doc :=
  (load_dataset env.train_pos env.train_neg, load_dataset env.test_pos env.test_neg)

/-- The notebook, cell by cell, as one straight-line program: download
and shuffle, tokenize both splits with `max_tokens = 100`, look up ELMo
embeddings with `max_sentences = 1000`, pad both splits, and fit the
model for `epochs = 10`. -/
def script {Model : Type} (env : Env Model) : Option (Model × Nat) := do
  let (train_data0, test_data0) := download_and_load_datasets env
  let train_data1 := env.shuffle_train train_data0
  let test_data1 := env.shuffle_test test_data0
  let train_data ← tokenize_text env.text_to_word_sequence max_tokens train_data1
  let test_data ← tokenize_text env.text_to_word_sequence max_tokens test_data1
  let (train_x0, train_y) ← create_elmo_embeddings env.embed_sentences train_data 1000
  let (test_x0, _test_y) ← create_elmo_embeddings env.embed_sentences test_data 1000
  let train_x ← pad_x_matrix train_x0
  let _test_x ← pad_x_matrix test_x0
  pure (fit env.train_step (train_x, train_y) script_fit_epochs env.init_model)

/-! The same script, cut at the stage boundaries named by the
documentation: dataset acquisition, tokenization, embedding lookup, and
model training (the padding is the preamble of the training cell's
input). -/

/-- Stage 1: dataset acquisition (download, directory loading, and the
two `random.shuffle` calls). -/
def stage_acquire {Model : Type} (env : Env Model) : List Doc × List Doc :=
  let p := download_and_load_datasets env
  (env.shuffle_train p.1, env.shuffle_test p.2)

/-- Stage 2: tokenization of both splits. -/
def stage_tokenize {Model : Type} (env : Env Model) (p : List Doc × List Doc) :
    Option (List Doc × List Doc) := do
  let tr ← tokenize_text env.text_to_word_sequence max_tokens p.1
  let te ← tokenize_text env.text_to_word_sequence max_tokens p.2
  pure (tr, te)

/-- Stage 3: ELMo embedding lookup for both splits. -/
def stage_embed {Model : Type} (env : Env Model) (p : List Doc × List Doc) :
    Option ((List Emb × List PyVal) × (List Emb × List PyVal)) := do
  let a ← create_elmo_embeddings env.embed_sentences p.1 1000
  let b ← create_elmo_embeddings env.embed_sentences p.2 1000
  pure (a, b)

/-- Stage 4: padding of both splits and the `model.fit` call. -/
def stage_train {Model : Type} (env : Env Model)
    (p : (List Emb × List PyVal) × (List Emb × List PyVal)) :
    Option (Model × Nat) := do
  let train_x ← pad_x_matrix p.1.1
  let _test_x ← pad_x_matrix p.2.1
  pure (fit env.train_step (train_x, p.1.2) script_fit_epochs env.init_model)

/-! ## Error propagation

The notebook contains no `try`/`except`: every statement either returns
a value or raises, and a raised exception aborts the remaining
statements.  `script_pipeline` is the script's straight-line composition
with each stage's possible exception made explicit in `Except`: the
download (which also performs the file reads), tokenization, embedding
lookup, padding, and training. -/

def script_pipeline {A B C D R Err : Type}
    (download : Except Err A) (tokenize : A → Except Err B)
    (embed : B → Except Err C) (pad : C → Except Err D)
    (train : D → Except Err R) : Except Err R :=
  download >>= tokenize >>= embed >>= pad >>= train

/-! ## Supporting lemmas -/

/-- `fit` performs exactly as many passes over the training data as the
`epochs` argument requests. -/
theorem fit_pass_count {Model Data : Type} (step : Data → Model → Model) (data : Data) :
    ∀ (e : Nat) (m : Model), (fit step data e m).2 = e := by
  intro e
  induction e with
  | zero => intro m; rfl
  | succ n ih => intro m; simp [fit, ih]

/-- Padding the empty sentence fails: `padding_length = 100 > 0` and the
empty array has no second axis. -/
theorem pad_sentence_nil : pad_sentence [] = none := by decide

/-- A non-empty sentence of at most `max_tokens` rows of width `d` is
padded with all-zero rows to exactly `max_tokens` rows. -/
theorem pad_sentence_spec (sent : Emb) (d : Nat)
    (hne : sent ≠ []) (hlen : sent.length ≤ max_tokens)
    (hd : ∀ r ∈ sent, r.length = d) :
    pad_sentence sent =
      some (sent ++ List.replicate (max_tokens - sent.length) (List.replicate d 0)) := by
  obtain ⟨r, rs, rfl⟩ : ∃ r rs, sent = r :: rs := by
    cases sent with
    | nil => exact absurd rfl hne
    | cons r rs => exact ⟨r, rs, rfl⟩
  simp only [pad_sentence]
  by_cases h : (r :: rs).length < max_tokens
  · rw [if_pos (by omega)]
    have hall : (rs.all fun row => decide (row.length = d)) = true := by
      rw [List.all_eq_true]
      intro row hrow
      simp [hd row (List.mem_cons_of_mem r hrow)]
    have htn : ((max_tokens : Int) - ((r :: rs).length : Int)).toNat =
        max_tokens - (r :: rs).length := by omega
    simp [np_shape1, hd r (List.mem_cons_self r rs), hall, htn]
    omega
  · rw [if_neg (by omega)]
    have h0 : max_tokens - (r :: rs).length = 0 := by omega
    rw [h0]
    simp

/-- The padding loop, when every sentence pads successfully, rebuilds
the list elementwise. -/
theorem pad_loop_eq_map (x : List Emb) (f : Emb → Emb)
    (h : ∀ s ∈ x, pad_sentence s = some (f s)) :
    pad_loop x = some (x.map f) := by
  induction x with
  | nil => rfl
  | cons s rest ih =>
    rw [pad_loop, h s (List.mem_cons_self s rest),
      ih (fun t ht => h t (List.mem_cons_of_mem s ht))]
    rfl

/-- A nested list whose sentences all have the same number of rows and
whose rows all have the same width assembles into one 3-d array. -/
theorem rect3_of_uniform (m : List Emb) (L d : Nat)
    (hL : ∀ s ∈ m, s.length = L)
    (hd : ∀ s ∈ m, ∀ r ∈ s, r.length = d) :
    rect3 m = true := by
  unfold rect3
  rw [Bool.and_eq_true]
  constructor
  · cases m with
    | nil => rfl
    | cons s rest =>
      rw [List.all_eq_true]
      intro t ht
      have h1 := hL t (List.mem_cons_of_mem s ht)
      have h2 := hL s (List.mem_cons_self s rest)
      simp [h1, h2]
  · have hmem : ∀ q ∈ m.flatten, q.length = d := by
      intro q hq
      rcases List.mem_flatten.mp hq with ⟨s, hs, hqs⟩
      exact hd s hs q hqs
    rcases hfl : m.flatten with _ | ⟨r, rows⟩
    · rfl
    · rw [List.all_eq_true]
      intro row hrow
      have h1 : r.length = d := hmem r (by rw [hfl]; exact List.mem_cons_self _ _)
      have h2 : row.length = d := hmem row (by rw [hfl]; exact List.mem_cons_of_mem _ hrow)
      simp [h1, h2]

/-- Tokenizing one document whose `"text"` field holds the string `t`
sets its `"tokens"` field to the truncated word sequence of `t` and
changes nothing else. -/
theorem tokenize_document_spec (t2ws : String → List String) (mtk : Nat) (d : Doc)
    (t : String) (ht : dictGet d "text" = some (PyVal.vStr t)) :
    tokenize_document t2ws mtk d =
      some (dictSet d "tokens" (PyVal.vTokens ((t2ws t).take mtk))) := by
  simp only [tokenize_document, ht, dictGet_dictSet_self, dictSet_dictSet]

/-- When every document has a string `"text"` field, `tokenize_text`
succeeds and rewrites the list elementwise. -/
theorem tokenize_text_eq_map (t2ws : String → List String) (mtk : Nat) (docs : List Doc)
    (h : ∀ d ∈ docs, ∃ t, dictGet d "text" = some (PyVal.vStr t)) :
    tokenize_text t2ws mtk docs =
      some (docs.map
        (fun d => dictSet d "tokens" (PyVal.vTokens ((t2ws (getText d)).take mtk)))) := by
  induction docs with
  | nil => rfl
  | cons d ds ih =>
    obtain ⟨t, ht⟩ := h d (List.mem_cons_self d ds)
    have hgt : getText d = t := by simp [getText, ht]
    rw [tokenize_text, tokenize_document_spec t2ws mtk d t ht,
      ih (fun d2 hd2 => h d2 (List.mem_cons_of_mem _ hd2))]
    simp [hgt]

/-- Every output document of a successful `tokenize_text` comes from
tokenizing some input document. -/
theorem tokenize_text_mem (t2ws : String → List String) (mtk : Nat) :
    ∀ (docs docs2 : List Doc), tokenize_text t2ws mtk docs = some docs2 →
      ∀ d2 ∈ docs2, ∃ d ∈ docs, tokenize_document t2ws mtk d = some d2 := by
  intro docs
  induction docs with
  | nil =>
    intro docs2 h d2 hd2
    rw [tokenize_text] at h
    injection h with h
    rw [← h] at hd2
    cases hd2
  | cons d ds ih =>
    intro docs2 h d2 hd2
    rw [tokenize_text] at h
    rcases h1 : tokenize_document t2ws mtk d with _ | e
    · rw [h1] at h; cases h
    · rcases h2 : tokenize_text t2ws mtk ds with _ | es
      · rw [h1, h2] at h; cases h
      · rw [h1, h2] at h
        injection h with h
        rw [← h] at hd2
        rcases List.mem_cons.mp hd2 with h3 | h3
        · exact ⟨d, List.mem_cons_self d ds, h3 ▸ h1⟩
        · rcases ih es h2 d2 h3 with ⟨d0, hd0, hd0t⟩
          exact ⟨d0, List.mem_cons_of_mem d hd0, hd0t⟩

/-- A pair of a list member and the corresponding member of its mapped
image. -/
theorem mem_zip_map {α β : Type _} (l : List α) (f : α → β) (p : α × β)
    (hp : p ∈ l.zip (l.map f)) : p.1 ∈ l ∧ p.2 = f p.1 := by
  induction l with
  | nil => cases hp
  | cons a as ih =>
    rcases List.mem_cons.mp hp with h | h
    · constructor
      · rw [h]; exact List.mem_cons_self a as
      · rw [h]
    · rcases ih h with ⟨h1, h2⟩
      exact ⟨List.mem_cons_of_mem _ h1, h2⟩

/-- The embedding loop, started at position `idx` on the generator
suffix for `documents.drop idx`, returns the layer-averaged embeddings
and the labels of the documents from `idx` on, truncated at
`max_sentences` when that bound is positive. -/
theorem elmoLoop_spec (documents : List Doc) (g : Doc → Emb3) (maxS : Int)
    (hlab : ∀ d ∈ documents, (dictGet d "label").isSome) :
    ∀ (suffix : List Doc) (idx : Nat), documents.drop idx = suffix →
      (0 < maxS → (idx : Int) < maxS) →
      elmoLoop documents maxS (suffix.map g) idx =
        some ((suffix.map (fun d => npAverageAxis0 (g d))).take
                (if 0 < maxS then maxS.toNat - idx else documents.length),
              (suffix.map getLabel).take
                (if 0 < maxS then maxS.toNat - idx else documents.length)) := by
  intro suffix
  induction suffix with
  | nil =>
    intro idx hdrop hidx
    simp [elmoLoop]
  | cons d tl ih =>
    intro idx hdrop hidx
    have hget : documents[idx]? = some d := by
      have hh : (documents.drop idx)[0]? = some d := by rw [hdrop]; simp
      rw [List.getElem?_drop] at hh
      simpa using hh
    have hmem : d ∈ documents := by
      have : d ∈ documents.drop idx := by
        rw [hdrop]; exact List.mem_cons_self d tl
      exact List.mem_of_mem_drop this
    obtain ⟨lab, hlabd⟩ := Option.isSome_iff_exists.mp (hlab d hmem)
    have hgl : getLabel d = lab := by simp [getLabel, hlabd]
    have hdrop2 : documents.drop (idx + 1) = tl := by
      rw [← List.tail_drop, hdrop]
      rfl
    have hlens : tl.length + 1 = documents.length - idx := by
      have hh := List.length_drop idx documents
      rw [hdrop] at hh
      simp at hh
      omega
    rw [List.map_cons, elmoLoop]
    simp only [hget, hlabd]
    by_cases hbr : 0 < maxS ∧ maxS ≤ ((idx : Int) + 1)
    · rw [if_pos hbr]
      have hm : (if 0 < maxS then maxS.toNat - idx else documents.length) = 1 := by
        rw [if_pos hbr.1]
        have := hidx hbr.1
        omega
      rw [hm]
      simp [hgl]
    · rw [if_neg hbr]
      have hidx2 : 0 < maxS → ((idx + 1 : Nat) : Int) < maxS := by
        intro h0
        rcases not_and_or.mp hbr with h | h
        · exact absurd h0 h
        · push_neg at h
          push_cast
          omega
      rw [ih (idx + 1) hdrop2 hidx2]
      by_cases h0 : 0 < maxS
      · simp only [if_pos h0]
        have h1 := hidx h0
        have h2 : ¬ maxS ≤ ((idx : Int) + 1) := fun hle => hbr ⟨h0, hle⟩
        have hm : maxS.toNat - idx = (maxS.toNat - (idx + 1)) + 1 := by omega
        rw [hm]
        simp [hgl, List.take_succ_cons]
      · simp only [if_neg h0]
        rw [List.take_of_length_le (l := (d :: tl).map fun d => npAverageAxis0 (g d))
            (by simp; omega),
          List.take_of_length_le (l := tl.map fun d => npAverageAxis0 (g d))
            (by simp; omega),
          List.take_of_length_le (l := (d :: tl).map getLabel) (by simp; omega),
          List.take_of_length_le (l := tl.map getLabel) (by simp; omega)]
        simp [hgl]

/-- When every document has a `"tokens"` list, the token-extraction
comprehension succeeds elementwise. -/
theorem extract_tokens_eq_map (docs : List Doc)
    (h : ∀ d ∈ docs, ∃ ts, dictGet d "tokens" = some (PyVal.vTokens ts)) :
    extract_tokens docs = some (docs.map getTokens) := by
  induction docs with
  | nil => rfl
  | cons d ds ih =>
    obtain ⟨ts, hts⟩ := h d (List.mem_cons_self d ds)
    have hget : getTokens d = ts := by simp [getTokens, hts]
    rw [extract_tokens, hts, ih (fun d2 hd2 => h d2 (List.mem_cons_of_mem _ hd2))]
    rw [List.map_cons, hget]

/-- Taking `k` elements is the same as taking `min k length`
elements. -/
theorem take_eq_take_min {α : Type _} (l : List α) (k : Nat) :
    l.take k = l.take (min k l.length) := by
  by_cases h : k ≤ l.length
  · rw [min_eq_left h]
  · push_neg at h
    rw [min_eq_right (le_of_lt h), List.take_length, List.take_of_length_le (le_of_lt h)]

/-! ## Claims -/

/-- C1: for every list of per-document embedding sequences in which
each sequence is non-empty, has at most `max_tokens = 100` rows, and all
rows share one embedding dimension `d`, `pad_x_matrix` returns a single
array of shape `(len(x_matrix), max_tokens, d)`: every sequence is
extended at the end with all-zero rows up to exactly `max_tokens` rows,
the original entries are unchanged, and all rows of the result have the
same fixed shape. -/
theorem pad_x_matrix_pads (x_matrix : List Emb) (d : Nat)
    (hne : ∀ s ∈ x_matrix, s ≠ [])
    (hlen : ∀ s ∈ x_matrix, s.length ≤ max_tokens)
    (hd : ∀ s ∈ x_matrix, ∀ r ∈ s, r.length = d) :
    pad_x_matrix x_matrix =
      some (x_matrix.map
        (fun s => s ++ List.replicate (max_tokens - s.length) (List.replicate d 0))) ∧
    ∀ padded, pad_x_matrix x_matrix = some padded →
      padded.length = x_matrix.length ∧
      ∀ s ∈ padded, s.length = max_tokens ∧ ∀ r ∈ s, r.length = d := by
  have hloop : pad_loop x_matrix =
      some (x_matrix.map
        (fun s => s ++ List.replicate (max_tokens - s.length) (List.replicate d 0))) :=
    pad_loop_eq_map x_matrix _
      (fun s hs => pad_sentence_spec s d (hne s hs) (hlen s hs) (hd s hs))
  have hshape : ∀ s ∈ x_matrix.map
      (fun s => s ++ List.replicate (max_tokens - s.length) (List.replicate d 0)),
      s.length = max_tokens ∧ ∀ r ∈ s, r.length = d := by
    intro s2 hs2
    rcases List.mem_map.mp hs2 with ⟨s, hs, rfl⟩
    refine ⟨?_, ?_⟩
    · have := hlen s hs
      simp only [List.length_append, List.length_replicate]
      omega
    · intro r hr
      rcases List.mem_append.mp hr with hr | hr
      · exact hd s hs r hr
      · rw [List.eq_of_mem_replicate hr]
        exact List.length_replicate d 0
  have hrect : rect3 (x_matrix.map
      (fun s => s ++ List.replicate (max_tokens - s.length) (List.replicate d 0))) = true :=
    rect3_of_uniform _ max_tokens d (fun s hs => (hshape s hs).1)
      (fun s hs => (hshape s hs).2)
  have hmain : pad_x_matrix x_matrix =
      some (x_matrix.map
        (fun s => s ++ List.replicate (max_tokens - s.length) (List.replicate d 0))) := by
    rw [pad_x_matrix, hloop]
    simp only [hrect, if_true]
  refine ⟨hmain, ?_⟩
  intro padded hp
  rw [hmain] at hp
  injection hp with hp
  subst hp
  exact ⟨by rw [List.length_map], hshape⟩

/-- C1 (witness): a matrix of two sequences of widths 2 is padded to
shape `(2, 100, 2)` with the original entries kept. -/
theorem pad_x_matrix_pads_witness :
    pad_x_matrix [[[(1 : ℚ), 2]], [[3, 4], [5, 6]]] =
      some ([[[(1 : ℚ), 2]], [[3, 4], [5, 6]]].map
        (fun s => s ++ List.replicate (max_tokens - s.length) (List.replicate 2 0))) ∧
    ∀ padded, pad_x_matrix [[[(1 : ℚ), 2]], [[3, 4], [5, 6]]] = some padded →
      padded.length = ([[[(1 : ℚ), 2]], [[3, 4], [5, 6]]] : List Emb).length ∧
      ∀ s ∈ padded, s.length = max_tokens ∧ ∀ r ∈ s, r.length = 2 :=
  pad_x_matrix_pads [[[(1 : ℚ), 2]], [[3, 4], [5, 6]]] 2
    (by decide) (by decide) (by decide)

/-- C7: after `tokenize_text(documents, max_tokens)` each document's
`"tokens"` field is the prefix of length at most `max_tokens` of the
word-sequence tokenization of its `"text"` field, and the `"text"` and
`"label"` fields of every document are left unchanged. -/
theorem tokenize_text_spec (t2ws : String → List String) (mtk : Nat)
    (documents : List Doc)
    (htext : ∀ d ∈ documents, ∃ t, dictGet d "text" = some (PyVal.vStr t)) :
    ∃ documents', tokenize_text t2ws mtk documents = some documents' ∧
      documents'.length = documents.length ∧
      ∀ p ∈ documents.zip documents',
        dictGet p.2 "text" = dictGet p.1 "text" ∧
        dictGet p.2 "label" = dictGet p.1 "label" ∧
        dictGet p.2 "tokens" = some (PyVal.vTokens ((t2ws (getText p.1)).take mtk)) ∧
        ∀ ts, dictGet p.2 "tokens" = some (PyVal.vTokens ts) → ts.length ≤ mtk := by
  refine ⟨_, tokenize_text_eq_map t2ws mtk documents htext, by rw [List.length_map], ?_⟩
  intro p hp
  obtain ⟨hp1, hp2⟩ := mem_zip_map documents _ p hp
  rw [hp2]
  refine ⟨dictGet_dictSet_ne _ _ _ _ (by decide),
    dictGet_dictSet_ne _ _ _ _ (by decide),
    dictGet_dictSet_self _ _ _, ?_⟩
  intro ts hts
  rw [dictGet_dictSet_self] at hts
  injection hts with hts
  injection hts with hts
  rw [← hts]
  exact List.length_take_le mtk _

/-- C7 (witness): tokenizing one two-field document truncates its token
list to `max_tokens = 2` and keeps text and label. -/
theorem tokenize_text_spec_witness :
    ∃ documents', tokenize_text (fun s => s.splitOn " ") 2
        [[("text", PyVal.vStr "a b c"), ("label", PyVal.vNat 1)]] = some documents' ∧
      documents'.length =
        ([[("text", PyVal.vStr "a b c"), ("label", PyVal.vNat 1)]] : List Doc).length ∧
      ∀ p ∈ ([[("text", PyVal.vStr "a b c"), ("label", PyVal.vNat 1)]] : List Doc).zip
          documents',
        dictGet p.2 "text" = dictGet p.1 "text" ∧
        dictGet p.2 "label" = dictGet p.1 "label" ∧
        dictGet p.2 "tokens" =
          some (PyVal.vTokens (((getText p.1).splitOn " ").take 2)) ∧
        ∀ ts, dictGet p.2 "tokens" = some (PyVal.vTokens ts) → ts.length ≤ 2 :=
  tokenize_text_spec (fun s => s.splitOn " ") 2
    [[("text", PyVal.vStr "a b c"), ("label", PyVal.vNat 1)]]
    (fun d hd => ⟨"a b c", by rw [List.mem_singleton.mp hd]; rfl⟩)

/-- Tokenizing a freshly loaded document record produces exactly the
three-field record. -/
theorem tokenize_document_mkDocument (t2ws : String → List String) (mtk : Nat)
    (c : String) (lab : Nat) :
    tokenize_document t2ws mtk (mkDocument c lab) =
      some [("text", PyVal.vStr (c.replace "<br />" " ")),
            ("label", PyVal.vNat lab),
            ("tokens", PyVal.vTokens ((t2ws (c.replace "<br />" " ")).take mtk))] := rfl

/-- C5: every document record that reaches the training stage is a
dictionary with exactly the keys `"text"` (the raw file contents with
`"<br />"` replaced by a space), `"label"`, and `"tokens"` (the token
list added by `tokenize_text`): the loading stage creates the first two
fields, tokenization adds the third, and no stage adds or removes any
other field. -/
theorem document_record_fields (pos_files neg_files : List String)
    (shuffle : List Doc → List Doc)
    (hshuffle : ∀ l, (shuffle l).Perm l)
    (t2ws : String → List String) (mtk : Nat) :
    ∃ documents',
      tokenize_text t2ws mtk (shuffle (load_dataset pos_files neg_files)) =
        some documents' ∧
      ∀ d ∈ documents', ∃ contents label,
        ((contents ∈ pos_files ∧ label = 1) ∨ (contents ∈ neg_files ∧ label = 0)) ∧
        d = [("text", PyVal.vStr (contents.replace "<br />" " ")),
             ("label", PyVal.vNat label),
             ("tokens", PyVal.vTokens ((t2ws (contents.replace "<br />" " ")).take mtk))] ∧
        d.map Prod.fst = ["text", "label", "tokens"] := by
  have hload : ∀ d ∈ shuffle (load_dataset pos_files neg_files),
      ∃ contents label,
        ((contents ∈ pos_files ∧ label = 1) ∨ (contents ∈ neg_files ∧ label = 0)) ∧
        d = mkDocument contents label := by
    intro d hd
    have hd2 : d ∈ load_dataset pos_files neg_files :=
      (hshuffle (load_dataset pos_files neg_files)).mem_iff.mp hd
    rcases List.mem_append.mp hd2 with h | h
    · rcases List.mem_map.mp h with ⟨c, hc, rfl⟩
      exact ⟨c, 1, Or.inl ⟨hc, rfl⟩, rfl⟩
    · rcases List.mem_map.mp h with ⟨c, hc, rfl⟩
      exact ⟨c, 0, Or.inr ⟨hc, rfl⟩, rfl⟩
  have htext : ∀ d ∈ shuffle (load_dataset pos_files neg_files),
      ∃ t, dictGet d "text" = some (PyVal.vStr t) := by
    intro d hd
    rcases hload d hd with ⟨c, lab, _, rfl⟩
    exact ⟨c.replace "<br />" " ", rfl⟩
  refine ⟨_, tokenize_text_eq_map t2ws mtk _ htext, ?_⟩
  intro d hd
  rcases List.mem_map.mp hd with ⟨d0, hd0, rfl⟩
  rcases hload d0 hd0 with ⟨c, lab, hc, rfl⟩
  have hgt : getText (mkDocument c lab) = c.replace "<br />" " " := rfl
  have hset : dictSet (mkDocument c lab) "tokens"
      (PyVal.vTokens ((t2ws (c.replace "<br />" " ")).take mtk)) =
      [("text", PyVal.vStr (c.replace "<br />" " ")),
       ("label", PyVal.vNat lab),
       ("tokens", PyVal.vTokens ((t2ws (c.replace "<br />" " ")).take mtk))] := rfl
  refine ⟨c, lab, hc, ?_, ?_⟩
  · rw [hgt, hset]
  · rw [hgt, hset]
    rfl

/-- C5 (witness): a one-file positive directory and an empty negative
directory, with the identity shuffle, yield records with exactly the
keys text, label, tokens. -/
theorem document_record_fields_witness :
    ∃ documents',
      tokenize_text (fun s => s.splitOn " ") 2
          (id (load_dataset ["good<br />fun" ] [])) = some documents' ∧
      ∀ d ∈ documents', ∃ contents label,
        ((contents ∈ ["good<br />fun"] ∧ label = 1) ∨ (contents ∈ ([] : List String) ∧ label = 0)) ∧
        d = [("text", PyVal.vStr (contents.replace "<br />" " ")),
             ("label", PyVal.vNat label),
             ("tokens", PyVal.vTokens
               (((contents.replace "<br />" " ").splitOn " ").take 2))] ∧
        d.map Prod.fst = ["text", "label", "tokens"] :=
  document_record_fields ["good<br />fun"] [] id (fun l => List.Perm.refl l)
    (fun s => s.splitOn " ") 2

/-- C8: `create_elmo_embeddings(elmo, documents, max_sentences)` returns
two lists, embeddings and labels, of equal length
`n = min(max_sentences, len(documents))` when `max_sentences > 0` and
`n = len(documents)` otherwise; for every index below `n` the label is
the document's `"label"` and the embedding is the layer-average of the
embedding produced for the document's tokens, in the original document
order. -/
theorem create_elmo_embeddings_spec (embed_sentences : List String → Emb3)
    (documents : List Doc) (max_sentences : Int)
    (htok : ∀ d ∈ documents, ∃ ts, dictGet d "tokens" = some (PyVal.vTokens ts))
    (hlab : ∀ d ∈ documents, (dictGet d "label").isSome) :
    ∃ embeddings labels,
      create_elmo_embeddings embed_sentences documents max_sentences =
        some (embeddings, labels) ∧
      embeddings.length =
        (if 0 < max_sentences then min max_sentences.toNat documents.length
         else documents.length) ∧
      labels.length =
        (if 0 < max_sentences then min max_sentences.toNat documents.length
         else documents.length) ∧
      embeddings =
        (documents.map (fun d => npAverageAxis0 (embed_sentences (getTokens d)))).take
          (if 0 < max_sentences then min max_sentences.toNat documents.length
           else documents.length) ∧
      labels =
        (documents.map getLabel).take
          (if 0 < max_sentences then min max_sentences.toNat documents.length
           else documents.length) := by
  have hloop := elmoLoop_spec documents (fun d => embed_sentences (getTokens d))
    max_sentences hlab documents 0 (List.drop_zero documents) (fun h0 => by simpa using h0)
  simp only [Nat.sub_zero] at hloop
  have hmap : ∀ {β : Type} (f : Doc → β),
      (documents.map f).take
          (if 0 < max_sentences then max_sentences.toNat else documents.length) =
        (documents.map f).take
          (if 0 < max_sentences then min max_sentences.toNat documents.length
           else documents.length) := by
    intro β f
    by_cases h0 : 0 < max_sentences
    · simp only [if_pos h0]
      rw [take_eq_take_min (documents.map f) max_sentences.toNat, List.length_map]
    · simp only [if_neg h0]
  refine ⟨_, _, ?_, ?_, ?_, rfl, rfl⟩
  · rw [create_elmo_embeddings, extract_tokens_eq_map documents htok]
    simp only [List.map_map, Function.comp_def]
    rw [hloop, hmap (fun d => npAverageAxis0 (embed_sentences (getTokens d))), hmap getLabel]
  · rw [List.length_take, List.length_map]
    by_cases h0 : 0 < max_sentences <;> simp [h0]
  · rw [List.length_take, List.length_map]
    by_cases h0 : 0 < max_sentences <;> simp [h0]

/-- C8 (witness): two documents with `max_sentences = 1` produce the
first document's averaged embedding and label only. -/
theorem create_elmo_embeddings_spec_witness :
    ∃ embeddings labels,
      create_elmo_embeddings (fun _ => [[[2]], [[4]]])
          [[("label", PyVal.vNat 1), ("tokens", PyVal.vTokens ["hi"])],
           [("label", PyVal.vNat 0), ("tokens", PyVal.vTokens ["yo"])]] 1 =
        some (embeddings, labels) ∧
      embeddings.length =
        (if (0 : Int) < 1 then
          min (1 : Int).toNat
            ([[("label", PyVal.vNat 1), ("tokens", PyVal.vTokens ["hi"])],
              [("label", PyVal.vNat 0), ("tokens", PyVal.vTokens ["yo"])]] : List Doc).length
         else ([[("label", PyVal.vNat 1), ("tokens", PyVal.vTokens ["hi"])],
              [("label", PyVal.vNat 0), ("tokens", PyVal.vTokens ["yo"])]] : List Doc).length) ∧
      labels.length =
        (if (0 : Int) < 1 then
          min (1 : Int).toNat
            ([[("label", PyVal.vNat 1), ("tokens", PyVal.vTokens ["hi"])],
              [("label", PyVal.vNat 0), ("tokens", PyVal.vTokens ["yo"])]] : List Doc).length
         else ([[("label", PyVal.vNat 1), ("tokens", PyVal.vTokens ["hi"])],
              [("label", PyVal.vNat 0), ("tokens", PyVal.vTokens ["yo"])]] : List Doc).length) ∧
      embeddings =
        (([[("label", PyVal.vNat 1), ("tokens", PyVal.vTokens ["hi"])],
           [("label", PyVal.vNat 0), ("tokens", PyVal.vTokens ["yo"])]] : List Doc).map
            (fun d => npAverageAxis0 ((fun _ => [[[2]], [[4]]]) (getTokens d)))).take
          (if (0 : Int) < 1 then
            min (1 : Int).toNat
              ([[("label", PyVal.vNat 1), ("tokens", PyVal.vTokens ["hi"])],
                [("label", PyVal.vNat 0), ("tokens", PyVal.vTokens ["yo"])]] : List Doc).length
           else ([[("label", PyVal.vNat 1), ("tokens", PyVal.vTokens ["hi"])],
                [("label", PyVal.vNat 0), ("tokens", PyVal.vTokens ["yo"])]] : List Doc).length) ∧
      labels =
        (([[("label", PyVal.vNat 1), ("tokens", PyVal.vTokens ["hi"])],
           [("label", PyVal.vNat 0), ("tokens", PyVal.vTokens ["yo"])]] : List Doc).map
            getLabel).take
          (if (0 : Int) < 1 then
            min (1 : Int).toNat
              ([[("label", PyVal.vNat 1), ("tokens", PyVal.vTokens ["hi"])],
                [("label", PyVal.vNat 0), ("tokens", PyVal.vTokens ["yo"])]] : List Doc).length
           else ([[("label", PyVal.vNat 1), ("tokens", PyVal.vTokens ["hi"])],
                [("label", PyVal.vNat 0), ("tokens", PyVal.vTokens ["yo"])]] : List Doc).length) :=
  create_elmo_embeddings_spec (fun _ => [[[2]], [[4]]])
    [[("label", PyVal.vNat 1), ("tokens", PyVal.vTokens ["hi"])],
     [("label", PyVal.vNat 0), ("tokens", PyVal.vTokens ["yo"])]] 1
    (by
      intro d hd
      rcases List.mem_cons.mp hd with h | h
      · exact ⟨["hi"], by rw [h]; rfl⟩
      · exact ⟨["yo"], by rw [List.mem_singleton.mp h]; rfl⟩)
    (by
      intro d hd
      rcases List.mem_cons.mp hd with h | h
      · rw [h]; rfl
      · rw [List.mem_singleton.mp h]; rfl)

/-- C2 (counterexample): the claim that the model construction stacks
exactly five layers is false: the notebook issues four `model.add`
calls, so the stack has four layers, not five. -/
theorem model_not_five_layers : ¬ model.length = 5 := by decide

/-- C2 (amended): the classifier is defined as a four-layer model: the
model construction stacks exactly four layers —
`Conv1D(250, 3, padding='same')`, `GlobalMaxPooling1D()`,
`Dense(250, relu)`, `Dense(1, sigmoid)` — via framework calls before
compilation. -/
theorem model_four_layers :
    model = [Layer.conv1D 250 3 "same", Layer.globalMaxPooling1D,
             Layer.dense 250 "relu", Layer.dense 1 "sigmoid"] ∧
    model.length = 4 := by
  constructor <;> rfl

/-- C4: the training call runs for a fixed number of epochs: `model.fit`
is invoked with `epochs = 10` (`script_fit_epochs`), so training
performs exactly 10 passes over the training data, regardless of the
data's content and of the model's weights. -/
theorem fit_fixed_epochs {Model Data : Type} (step : Data → Model → Model)
    (data : Data) (m : Model) :
    (fit step data script_fit_epochs m).2 = 10 :=
  fit_pass_count step data 10 m

/-- C9: `pad_x_matrix` is only safe for non-empty token sequences: as
soon as some element of `x_matrix` has zero rows, `padding_length` is
`max_tokens = 100 > 0` and `sentence_vec.shape[1]` raises an
`IndexError`, so the whole call fails instead of returning a padded
array. -/
theorem pad_x_matrix_empty_sentence (x_matrix : List Emb)
    (h : [] ∈ x_matrix) : pad_x_matrix x_matrix = none := by
  have hl : ∀ l : List Emb, [] ∈ l → pad_loop l = none := by
    intro l hmem
    induction l with
    | nil => cases hmem
    | cons s rest ih =>
      rcases List.mem_cons.mp hmem with hs | hs
      · rw [pad_loop, ← hs, pad_sentence_nil]
      · rw [pad_loop, ih hs]
        rcases pad_sentence s with _ | s2 <;> rfl
  rw [pad_x_matrix, hl x_matrix h]

/-- C9 (witness): a matrix containing one empty sentence makes
`pad_x_matrix` fail. -/
theorem pad_x_matrix_empty_sentence_witness :
    pad_x_matrix [([] : Emb)] = none :=
  pad_x_matrix_empty_sentence [[]] (List.mem_singleton.mpr rfl)

/-- C3: the script has no error handling of its own: whichever stage of
the straight-line pipeline (dataset download and file reading,
tokenization, embedding lookup, padding, training) is the first to
raise, its exception propagates unhandled to the top level and no
partial result is recovered. -/
theorem script_pipeline_propagates {A B C D R Err : Type}
    (download : Except Err A) (tokenize : A → Except Err B)
    (embed : B → Except Err C) (pad : C → Except Err D)
    (train : D → Except Err R) (e : Err)
    (h : download = Except.error e ∨
         (∃ a, download = Except.ok a ∧ tokenize a = Except.error e) ∨
         (∃ a b, download = Except.ok a ∧ tokenize a = Except.ok b ∧
            embed b = Except.error e) ∨
         (∃ a b c, download = Except.ok a ∧ tokenize a = Except.ok b ∧
            embed b = Except.ok c ∧ pad c = Except.error e) ∨
         (∃ a b c d, download = Except.ok a ∧ tokenize a = Except.ok b ∧
            embed b = Except.ok c ∧ pad c = Except.ok d ∧ train d = Except.error e)) :
    script_pipeline download tokenize embed pad train = Except.error e := by
  rcases h with h | ⟨a, h1, h2⟩ | ⟨a, b, h1, h2, h3⟩ | ⟨a, b, c, h1, h2, h3, h4⟩ |
    ⟨a, b, c, d, h1, h2, h3, h4, h5⟩ <;>
    simp_all [script_pipeline, Bind.bind, Except.bind]

/-- C3 (witness): a failing download propagates to the top of the
pipeline. -/
theorem script_pipeline_propagates_witness :
    script_pipeline (Except.error 7 : Except Nat Unit)
      (fun _ => Except.ok ()) (fun _ => Except.ok ())
      (fun _ => Except.ok ()) (fun _ => Except.ok ()) = Except.error 7 :=
  script_pipeline_propagates _ _ _ _ _ 7 (Or.inl rfl)

/-- C6: the script executes exactly four stages in a fixed sequential
order — dataset acquisition, then tokenization, then embedding lookup,
then model training — and each stage consumes only the output of the
preceding stages: the straight-line script equals the monadic
composition of the four stage functions in that order. -/
theorem script_is_stage_composition {Model : Type} (env : Env Model) :
    script env =
      ((stage_tokenize env (stage_acquire env)).bind (stage_embed env)).bind
        (stage_train env) := by
  simp only [script, stage_acquire, stage_tokenize, stage_embed, stage_train,
    download_and_load_datasets, Option.bind_eq_bind, bind, Option.bind]
  rcases h1 : tokenize_text env.text_to_word_sequence max_tokens
      (env.shuffle_train (load_dataset env.train_pos env.train_neg)) with _ | tr
  · rfl
  · rcases h2 : tokenize_text env.text_to_word_sequence max_tokens
        (env.shuffle_test (load_dataset env.test_pos env.test_neg)) with _ | te
    · rfl
    · rcases h3 : create_elmo_embeddings env.embed_sentences tr 1000 with _ | a
      · simp_all [stage_embed, stage_train, Bind.bind, Option.bind, Pure.pure]
      · rcases a with ⟨train_x0, train_y⟩
        rcases h4 : create_elmo_embeddings env.embed_sentences te 1000 with _ | b
        · simp_all [stage_embed, stage_train, Bind.bind, Option.bind, Pure.pure]
        · rcases b with ⟨test_x0, test_y⟩
          rcases h5 : pad_x_matrix train_x0 with _ | train_x
          · simp_all [stage_embed, stage_train, Bind.bind, Option.bind, Pure.pure]
          · rcases h6 : pad_x_matrix test_x0 with _ | test_x
            · simp_all [stage_embed, stage_train, Bind.bind, Option.bind, Pure.pure]
            · simp_all [stage_embed, stage_train, Bind.bind, Option.bind, Pure.pure]

end ElmoTutorial
